import Mathlib

/-!
# KodeSesh: the session-state core of `CodeEditorDashboard.jsx`

A shallow embedding of the state handlers of `src/pages/CodeEditorDashboard.jsx`:
the React state variables become the fields of `State`, every socket handler and
every local action becomes a function on `State` that also returns the events it
emits, and the asynchronous `executeCode` is split at its single `await`. The socket
handlers are registered once, by an effect that depends on `[activeSessionId]`; the
state variables they read directly are those of the registering render, which
`Registered` carries.
-/

namespace KodeSesh

/-! ## Data model -/

/-- A participant id as it travels in the events. The initial registry holds the
number `1`, ids read from local storage are strings; most handlers compare ids
through `toString()`. A numeric id (a finite number) is represented by the text that
`toString()` prints for it, which determines the number; a number and a string are
never strictly equal. -/
inductive ParticipantId
  | num (printed : String)
  | str (s : String)
  deriving DecidableEq

/-- The JavaScript `id.toString()`. -/
def ParticipantId.toString : ParticipantId → String
  | .num printed => printed
  | .str s => s

/-- One entry of `activeParticipants`. `isScreenSharing` is absent (`none`) until a
screen sharing event sets it. -/
structure Participant where
  id : ParticipantId
  name : String
  isHost : Bool
  isMuted : Bool
  isVideoOff : Bool
  isScreenSharing : Option Bool
  deriving DecidableEq

/-- The `type` tag of a terminal entry. -/
inductive EntryType
  | input
  | output
  | error
  deriving DecidableEq

/-- One entry of `terminalOutput`. -/
structure TerminalEntry where
  type : EntryType
  content : String
  deriving DecidableEq

/-- What the handlers read from outside the component state: the route parameter
`sessionId` and the two local storage items. -/
structure Env where
  sessionId : Option String
  userId : String
  userName : Option String
  deriving DecidableEq

/-- The JavaScript `x || d` on an optional string. -/
def orElse (x : Option String) (d : String) : String :=
  match x with
  | some s => if s != "" then s else d
  | none => d

/-- The constant `activeSessionId = sessionId || "demo-session"`. -/
def activeSessionId (env : Env) : String :=
  orElse env.sessionId "demo-session"

/-- The component state (`useState` variables) that the handlers read and write;
`connected` stands for `socket && socket.connected`. -/
structure State where
  code : String
  selectedFile : String
  currentLanguage : String
  isAudioOn : Bool
  isVideoOn : Bool
  isTerminalOpen : Bool
  terminalOutput : List TerminalEntry
  isExecuting : Bool
  activeParticipants : List Participant
  connected : Bool
  deriving DecidableEq

/-- The request body handed to the execution service. -/
structure ApiRequest where
  language : Option String
  version : String
  content : String
  compile_timeout : Nat
  run_timeout : Nat
  deriving DecidableEq

/-- The events the component emits on the socket. -/
inductive Emit
  | codeUpdate (sessionId : String) (code : String)
  | languageUpdate (sessionId : String) (language : String)
  | executionResult (sessionId : String) (terminalEntries : List TerminalEntry)
  | rtcNewParticipant (sessionId : String) (participantId : ParticipantId)
  | audioToggled (sessionId : String) (userId : String) (isMuted : Bool)
  | videoToggled (sessionId : String) (userId : String) (isVideoOff : Bool)
  deriving DecidableEq

/-- The state of the first render. -/
def initialState : State :=
  { code := "// Start writing your code here!"
    selectedFile := "main.js"
    currentLanguage := "javascript"
    isAudioOn := true
    isVideoOn := true
    isTerminalOpen := false
    terminalOutput := []
    isExecuting := false
    activeParticipants :=
      [{ id := .num "1", name := "You", isHost := true, isMuted := false,
         isVideoOff := false, isScreenSharing := none }]
    connected := false }

/-- The values of the render in which the socket effect registered its handlers.
The effect depends on `[activeSessionId]` only, so the handlers keep reading the
`code`, `isAudioOn` and `isVideoOn` of that render, not those of the current state. -/
structure Registered where
  code : String
  isAudioOn : Bool
  isVideoOn : Bool
  deriving DecidableEq

/-- The registering render of a mounted component: the first render. -/
def firstRender : Registered :=
  { code := initialState.code
    isAudioOn := initialState.isAudioOn
    isVideoOn := initialState.isVideoOn }

/-! ## Shared document state -/

/-- The object `codeTemplates`, as a lookup. -/
def codeTemplates (language : String) : Option String :=
  if language = "javascript" then some "console.log(\"Hello World\");\n"
  else if language = "python" then some "print(\"Hello World\")\n\n"
  else none

/-- The array `supportedLanguages`. -/
def supportedLanguages : List String := ["javascript", "python"]

/-- The object `extensions` of `updateFileExtension`, as a lookup. -/
def extensions (language : String) : Option String :=
  if language = "javascript" then some "js"
  else if language = "python" then some "py"
  else none

/-- How a template literal renders a looked-up value: a missing key gives
`undefined`. -/
def render : Option String → String
  | some s => s
  | none => "undefined"

/-- The function `updateFileExtension`. -/
def updateFileExtension (language : String) (s : State) : State :=
  { s with selectedFile := "main." ++ render (extensions language) }

/-- The payload of `languageUpdate`: a bare string, an object whose `language`
field may be missing, or `null`. -/
inductive LanguagePayload
  | bare (value : String)
  | object (language : Option String)
  | null
  deriving DecidableEq

/-- The normalisation `typeof data === 'object' ? data.language : data`. For `null`
the type is `object` and reading `data.language` throws a `TypeError`, which
`Except.error` stands for. -/
def LanguagePayload.updatedLanguage : LanguagePayload → Except String (Option String)
  | .bare v => .ok (some v)
  | .object l => .ok l
  | .null => .error "TypeError"

/-- The test `code === codeTemplates.javascript || code === "// Start writing your code here!"`. -/
def isDefaultJsCode (code : String) : Bool :=
  decide (some code = codeTemplates "javascript") ||
    decide (code = "// Start writing your code here!")

/-- The test `code === codeTemplates.python`. -/
def isDefaultPyCode (code : String) : Bool :=
  decide (some code = codeTemplates "python")

/-- The `languageUpdate` socket handler. The `code` it tests is the one of the
registering render, `reg.code`; the setters act on the current state `s`. Inside the
guard the template lookup is defined, since every supported language has a
template. `Except.error` stands for a thrown error, before any setter has run. -/
def languageUpdate (reg : Registered) (data : LanguagePayload) (s : State) :
    Except String State :=
  match data.updatedLanguage with
  | .error e => .error e
  | .ok none => .ok s
  | .ok (some updatedLanguage) =>
    if updatedLanguage != "" && supportedLanguages.contains updatedLanguage then
      let s1 := { s with currentLanguage := updatedLanguage }
      let s2 :=
        if isDefaultJsCode reg.code || isDefaultPyCode reg.code then
          { s1 with code := (codeTemplates updatedLanguage).getD s1.code }
        else s1
      .ok (updateFileExtension updatedLanguage s2)
    else .ok s

/-- The effect on `[currentLanguage]`: it runs after a render in which the language
differs from the previous one (`previous`), and acts only while connected. -/
def languageEffect (env : Env) (previous : String) (s : State) : State × List Emit :=
  if s.currentLanguage != previous && s.connected then
    (updateFileExtension s.currentLanguage s,
      [Emit.languageUpdate (activeSessionId env) s.currentLanguage])
  else (s, [])

/-- An inbound `languageUpdate` event: the handler, then the language effect; a
handler that throws has set nothing, so the state stays and no effect runs. -/
def onLanguageUpdate (env : Env) (reg : Registered) (data : LanguagePayload) (s : State) :
    State × List Emit :=
  match languageUpdate reg data s with
  | .ok s1 => languageEffect env s.currentLanguage s1
  | .error _ => (s, [])

/-- The prop `setCurrentLanguage` handed to the editor header: the state setter,
then the language effect. -/
def setCurrentLanguage (env : Env) (language : String) (s : State) : State × List Emit :=
  languageEffect env s.currentLanguage { s with currentLanguage := language }

/-- The prop `onFileSelect={setSelectedFile}` handed to the file explorer. -/
def onFileSelect (file : String) (s : State) : State :=
  { s with selectedFile := file }

/-- The mount effect: the template of the current language and its file name. -/
def mountEffect (s : State) : State :=
  updateFileExtension s.currentLanguage
    { s with code := (codeTemplates s.currentLanguage).getD s.code }

/-- The socket `connect` / `disconnect` transitions of `socket.connected`. -/
def setConnected (b : Bool) (s : State) : State :=
  { s with connected := b }

/-- The `codeUpdate` socket handler. -/
def codeUpdate (updatedCode : String) (s : State) : State :=
  { s with code := updatedCode }

/-- The local action `handleCodeChange`. -/
def handleCodeChange (env : Env) (newCode : String) (s : State) : State × List Emit :=
  ({ s with code := newCode },
    if s.connected then [Emit.codeUpdate (activeSessionId env) newCode] else [])

/-! ## Presence registry -/

/-- The test `p.id.toString() === key` used by the registry handlers. -/
def hasId (key : String) (p : Participant) : Bool :=
  p.id.toString == key

/-- The `participantsList` socket handler; the local entry it synthesises takes
`isAudioOn` and `isVideoOn` from the registering render. -/
def participantsList (env : Env) (reg : Registered) (participants : List Participant)
    (s : State) : State :=
  let userId := env.userId
  let ownParticipant := participants.find? (hasId userId)
  match ownParticipant with
  | none =>
    let myParticipant : Participant :=
      { id := .str userId
        name := orElse env.userName "You"
        isHost := env.sessionId.isNone || env.sessionId == some ""
        isMuted := !reg.isAudioOn
        isVideoOff := !reg.isVideoOn
        isScreenSharing := none }
    { s with activeParticipants := myParticipant :: participants }
  | some _ => { s with activeParticipants := participants }

/-- The updater passed to `setActiveParticipants` by the `participantJoined`
handler. -/
def applyJoin (prev : List Participant) (participant : Participant) : List Participant :=
  let exists_ := prev.any (hasId participant.id.toString)
  if exists_ then
    prev.map (fun p => if hasId participant.id.toString p then participant else p)
  else
    prev ++ [participant]

/-- The `participantJoined` socket handler: the registry update and the WebRTC
trigger for a participant other than the local one. -/
def participantJoined (env : Env) (participant : Participant) (s : State) :
    State × List Emit :=
  ({ s with activeParticipants := applyJoin s.activeParticipants participant },
    if participant.id.toString != env.userId then
      [Emit.rtcNewParticipant (activeSessionId env) participant.id]
    else [])

/-- The `participantLeft` socket handler: `prev.filter(p => p.id !== participantId)`,
a strict comparison of the ids themselves. -/
def participantLeft (participantId : ParticipantId) (s : State) : State :=
  { s with activeParticipants := s.activeParticipants.filter (fun p => p.id != participantId) }

/-- The four toggle events, with the id they carry. -/
inductive ToggleEvent
  | audioToggled (userId : ParticipantId) (isMuted : Bool)
  | videoToggled (userId : ParticipantId) (isVideoOff : Bool)
  | screenSharingStarted (userId : ParticipantId)
  | screenSharingEnded (userId : ParticipantId)
  deriving DecidableEq

/-- The id carried by a toggle event. -/
def ToggleEvent.userId : ToggleEvent → ParticipantId
  | .audioToggled u _ => u
  | .videoToggled u _ => u
  | .screenSharingStarted u => u
  | .screenSharingEnded u => u

/-- The updaters of the `audioToggled`, `videoToggled`, `screenSharingStarted` and
`screenSharingEnded` handlers. -/
def applyToggle (ev : ToggleEvent) (prev : List Participant) : List Participant :=
  match ev with
  | .audioToggled userId isMuted =>
    prev.map (fun p => if hasId userId.toString p then { p with isMuted := isMuted } else p)
  | .videoToggled userId isVideoOff =>
    prev.map (fun p => if hasId userId.toString p then { p with isVideoOff := isVideoOff } else p)
  | .screenSharingStarted userId =>
    prev.map (fun p => if hasId userId.toString p then { p with isScreenSharing := some true } else p)
  | .screenSharingEnded userId =>
    prev.map (fun p => if hasId userId.toString p then { p with isScreenSharing := some false } else p)

/-- A toggle event handler on the component state. -/
def onToggle (ev : ToggleEvent) (s : State) : State :=
  { s with activeParticipants := applyToggle ev s.activeParticipants }

/-- The local action `toggleAudio`. -/
def toggleAudio (env : Env) (s : State) : State × List Emit :=
  let newAudioState := !s.isAudioOn
  let userId := env.userId
  ({ s with
      isAudioOn := newAudioState
      activeParticipants :=
        s.activeParticipants.map
          (fun p => if hasId userId p then { p with isMuted := !newAudioState } else p) },
    if s.connected then
      [Emit.audioToggled (activeSessionId env) userId (!newAudioState)]
    else [])

/-- The local action `toggleVideo`. -/
def toggleVideo (env : Env) (s : State) : State × List Emit :=
  let newVideoState := !s.isVideoOn
  let userId := env.userId
  ({ s with
      isVideoOn := newVideoState
      activeParticipants :=
        s.activeParticipants.map
          (fun p => if hasId userId p then { p with isVideoOff := !newVideoState } else p) },
    if s.connected then
      [Emit.videoToggled (activeSessionId env) userId (!newVideoState)]
    else [])

/-! ## Execution relay and terminal log -/

/-- The payload of an inbound `executionResult`: the full entries, or the basic
format that carries only an output text. -/
inductive ExecutionPayload
  | terminalEntries (entries : List TerminalEntry)
  | basic (output : String)
  deriving DecidableEq

/-- The `executionResult` socket handler. -/
def executionResult (result : ExecutionPayload) (s : State) : State :=
  match result with
  | .terminalEntries entries =>
    { s with terminalOutput := s.terminalOutput ++ entries, isTerminalOpen := true }
  | .basic output =>
    { s with
        terminalOutput := s.terminalOutput ++ [{ type := .output, content := output }]
        isTerminalOpen := true }

/-- The `run` object of a parsed service response; each field may be missing. -/
structure RunInfo where
  stdout : Option String
  stderr : Option String
  code : Option Int
  deriving DecidableEq

/-- What `response.json()` gives: a rejection with a message; the value `null`, at
which reading `result.run` throws a `TypeError` with the message given; or another
parsed value, whose `run` object may be missing (as it is in every value that is
not an object). -/
inductive BodyOutcome
  | parseError (message : String)
  | null (typeErrorMessage : String)
  | value (run : Option RunInfo)
  deriving DecidableEq

/-- What `fetch` gives: a rejection with a message (network failure), or a response
with a status and a body. -/
inductive FetchOutcome
  | networkError (message : String)
  | response (status : Nat) (body : BodyOutcome)
  deriving DecidableEq

/-- The property `response.ok`: a status in the range 200 to 299. -/
def responseOk (status : Nat) : Bool :=
  decide (200 ≤ status) && decide (status ≤ 299)

/-- The object returned by `executeCodeWithExternalAPI`. -/
structure ApiResult where
  output : String
  error : String
  exitCode : Int
  deriving DecidableEq

/-- The request that `executeCodeWithExternalAPI` posts. -/
def apiRequest (code : String) (language : Option String) : ApiRequest :=
  { language := language
    version := if language = some "javascript" then "18.x" else "3.10.0"
    content := code
    compile_timeout := 10000
    run_timeout := 10000 }

/-- The `try` block of `executeCodeWithExternalAPI`: `Except.error m` stands for a
thrown error with message `m`. -/
def callApi (o : FetchOutcome) : Except String ApiResult :=
  match o with
  | .networkError m => .error m
  | .response status body =>
    if !responseOk status then
      .error ("API responded with status: " ++ Nat.repr status)
    else
      match body with
      | .parseError m => .error m
      | .null m => .error m
      | .value run =>
        .ok { output := orElse (run.bind (fun r => r.stdout)) ""
              error := orElse (run.bind (fun r => r.stderr)) ""
              exitCode :=
                match run.bind (fun r => r.code) with
                | some c => if c = 0 then 0 else c
                | none => 0 }

/-- The function `executeCodeWithExternalAPI`: its `catch` turns every thrown error
into a returned object. -/
def executeCodeWithExternalAPI (o : FetchOutcome) : Except String ApiResult :=
  match callApi o with
  | .ok r => .ok r
  | .error m => .ok { output := "", error := "Execution failed: " ++ m, exitCode := 1 }

/-- The local constants of `executeCode` that live across its `await`. -/
structure Pending where
  commandEntry : TerminalEntry
  updatedHistory : List TerminalEntry
  request : ApiRequest
  deriving DecidableEq

/-- The constant `commandEntry` of `executeCode`. -/
def commandEntry (s : State) : TerminalEntry :=
  { type := .input
    content := "run " ++ (if s.currentLanguage = "javascript" then "main.js" else "main.py") }

/-- The constant `loadingEntry` of `executeCode`. -/
def loadingEntry : TerminalEntry :=
  { type := .output, content := "Executing code..." }

/-- The lookup that maps the language to the name the service expects. -/
def apiLanguage (language : String) : Option String :=
  if language = "javascript" then some "javascript"
  else if language = "python" then some "python3"
  else none

/-- The function `executeCode` up to its `await`: `none` when the guard returns,
otherwise the request and the constants kept for the completion. -/
def executeCodeStart (s : State) : State × Option Pending :=
  if s.isExecuting then (s, none)
  else
    let updatedHistory := s.terminalOutput ++ [commandEntry s, loadingEntry]
    ({ s with terminalOutput := updatedHistory, isTerminalOpen := true, isExecuting := true },
      some { commandEntry := commandEntry s
             updatedHistory := updatedHistory
             request := apiRequest s.code (apiLanguage s.currentLanguage) })

/-- The array `resultEntries` built from the returned object: the function reads
`result.output` and `result.error`, as the object has no `run` field. -/
def resultEntries (r : ApiResult) : List TerminalEntry :=
  (if r.output != "" then [{ type := .output, content := r.output }] else []) ++
    (if r.error != "" then [{ type := .error, content := r.error }] else [])

/-- The entries `executeCode` adds after the command entry, for an outcome of the
service: the result entries, or the single entry of its own `catch`. -/
def addedEntries (o : FetchOutcome) : List TerminalEntry :=
  match executeCodeWithExternalAPI o with
  | .ok r => resultEntries r
  | .error m => [{ type := .error, content := "Error executing code: " ++ m }]

/-- The function `executeCode` after its `await`, run on the state `s` of that
moment with the constants `p` of the call: the final history replaces the log,
the entries are broadcast while connected, and `finally` clears the flag. -/
def executeCodeFinish (env : Env) (p : Pending) (o : FetchOutcome) (s : State) :
    State × List Emit :=
  let finalHistory := p.updatedHistory.dropLast ++ addedEntries o
  ({ s with terminalOutput := finalHistory, isExecuting := false },
    if s.connected then
      [Emit.executionResult (activeSessionId env) (p.commandEntry :: addedEntries o)]
    else [])

/-- A whole run of `executeCode` with no other event in between: the service
request it makes, the state after completion and the events emitted. -/
def executeCode (env : Env) (o : FetchOutcome) (s : State) :
    State × Option ApiRequest × List Emit :=
  match executeCodeStart s with
  | (s1, none) => (s1, none, [])
  | (s1, some p) =>
    let r := executeCodeFinish env p o s1
    (r.1, some p.request, r.2)

/-- A run of `executeCode` during whose `await` the `executionResult` events
`remote` arrive, in that order: the start, the handler for each event, then the
completion on the state of that moment. -/
def executeCodeDuring (env : Env) (o : FetchOutcome) (remote : List ExecutionPayload)
    (s : State) : State × List Emit :=
  match executeCodeStart s with
  | (s1, none) => (remote.foldl (fun t r => executionResult r t) s1, [])
  | (s1, some p) =>
    executeCodeFinish env p o (remote.foldl (fun t r => executionResult r t) s1)

/-! ## Reachable states -/

/-- The operations of the core on the session state. -/
inductive Action
  | mount
  | connect
  | disconnect
  | remoteCode (code : String)
  | localCode (code : String)
  | remoteLanguage (data : LanguagePayload)
  | localLanguage (language : String)
  | fileSelect (file : String)
  | participants (list : List Participant)
  | joined (participant : Participant)
  | left (participantId : ParticipantId)
  | toggled (ev : ToggleEvent)
  | localAudio
  | localVideo
  | remoteExecution (result : ExecutionPayload)
  | execute (o : FetchOutcome)

/-- One operation applied to a state; the socket handlers are those registered in
the first render. -/
def step (env : Env) (s : State) : Action → State
  | .mount => mountEffect s
  | .connect => setConnected true s
  | .disconnect => setConnected false s
  | .remoteCode c => codeUpdate c s
  | .localCode c => (handleCodeChange env c s).1
  | .remoteLanguage d => (onLanguageUpdate env firstRender d s).1
  | .localLanguage l => (setCurrentLanguage env l s).1
  | .fileSelect f => onFileSelect f s
  | .participants l => participantsList env firstRender l s
  | .joined p => (participantJoined env p s).1
  | .left i => participantLeft i s
  | .toggled ev => onToggle ev s
  | .localAudio => (toggleAudio env s).1
  | .localVideo => (toggleVideo env s).1
  | .remoteExecution r => executionResult r s
  | .execute o => (executeCode env o s).1

/-- The state after a sequence of operations from the first render. -/
def run (env : Env) (actions : List Action) : State :=
  actions.foldl (step env) initialState

/-- The file name the language determines: `main.` and the canonical extension. -/
def fileNameOf (language : String) : String :=
  "main." ++ render (extensions language)


/-! ## Shared lemmas -/

theorem languageEffect_code (env : Env) (previous : String) (s : State) :
    (languageEffect env previous s).1.code = s.code := by
  unfold languageEffect
  split <;> rfl

theorem languageEffect_currentLanguage (env : Env) (previous : String) (s : State) :
    (languageEffect env previous s).1.currentLanguage = s.currentLanguage := by
  unfold languageEffect
  split <;> rfl

theorem mem_supportedLanguages (L : String) :
    L ∈ supportedLanguages ↔ L = "javascript" ∨ L = "python" := by
  simp [supportedLanguages]

theorem languageUpdate_supported (reg : Registered) (data : LanguagePayload) (L : String)
    (s : State) (hd : data.updatedLanguage = .ok (some L)) (hL : L ∈ supportedLanguages) :
    languageUpdate reg data s =
      .ok (updateFileExtension L
        (if isDefaultJsCode reg.code || isDefaultPyCode reg.code then
          { s with currentLanguage := L, code := (codeTemplates L).getD s.code }
        else { s with currentLanguage := L })) := by
  have hne : (L != "") = true := by
    rcases (mem_supportedLanguages L).1 hL with h | h <;> subst h <;> decide
  have hc : supportedLanguages.contains L = true := by
    rcases (mem_supportedLanguages L).1 hL with h | h <;> subst h <;> decide
  simp only [languageUpdate, hd, hne, hc, Bool.and_self, if_true]

theorem languageUpdate_ignored (reg : Registered) (data : LanguagePayload) (s : State)
    (hn : data ≠ .null)
    (h : ∀ L, data.updatedLanguage = .ok (some L) → L ∉ supportedLanguages) :
    languageUpdate reg data s = .ok s := by
  unfold languageUpdate
  cases data with
  | null => exact absurd rfl hn
  | bare v =>
    have hv : supportedLanguages.contains v = false := by
      have := h v rfl
      simpa using this
    simp only [LanguagePayload.updatedLanguage, hv, Bool.and_false]
    rfl
  | object l =>
    cases l with
    | none => rfl
    | some v =>
      have hv : supportedLanguages.contains v = false := by
        have := h v rfl
        simpa using this
      simp only [LanguagePayload.updatedLanguage, hv, Bool.and_false]
      rfl

theorem onLanguageUpdate_ok (env : Env) (reg : Registered) (data : LanguagePayload)
    (s s1 : State) (h : languageUpdate reg data s = .ok s1) :
    onLanguageUpdate env reg data s = languageEffect env s.currentLanguage s1 := by
  simp only [onLanguageUpdate, h]

theorem onLanguageUpdate_thrown (env : Env) (reg : Registered) (data : LanguagePayload)
    (s : State) (e : String) (h : languageUpdate reg data s = .error e) :
    onLanguageUpdate env reg data s = (s, []) := by
  simp only [onLanguageUpdate, h]

/-- The code after the handler, for a supported language: the template when the
code of the registering render is one of the three defaults, the current code
otherwise. -/
theorem languageUpdate_code_of_registered (env : Env) (reg : Registered)
    (data : LanguagePayload) (L : String) (s : State)
    (hd : data.updatedLanguage = .ok (some L)) (hL : L ∈ supportedLanguages) :
    ((reg.code = "console.log(\"Hello World\");\n" ∨ reg.code = "print(\"Hello World\")\n\n" ∨
        reg.code = "// Start writing your code here!") →
      some (onLanguageUpdate env reg data s).1.code = codeTemplates L) ∧
    (¬ (reg.code = "console.log(\"Hello World\");\n" ∨
        reg.code = "print(\"Hello World\")\n\n" ∨
        reg.code = "// Start writing your code here!") →
      (onLanguageUpdate env reg data s).1.code = s.code) := by
  have hT : ∃ t, codeTemplates L = some t := by
    rcases (mem_supportedLanguages L).1 hL with h | h <;> subst h <;>
      exact ⟨_, rfl⟩
  obtain ⟨t, ht⟩ := hT
  have hdef : (isDefaultJsCode reg.code || isDefaultPyCode reg.code) = true ↔
      (reg.code = "console.log(\"Hello World\");\n" ∨
        reg.code = "print(\"Hello World\")\n\n" ∨
        reg.code = "// Start writing your code here!") := by
    simp only [isDefaultJsCode, isDefaultPyCode, codeTemplates, Bool.or_eq_true,
      decide_eq_true_eq, Option.some.injEq]
    simp
    tauto
  rw [onLanguageUpdate_ok env reg data s _ (languageUpdate_supported reg data L s hd hL),
    languageEffect_code]
  constructor
  · intro h
    rw [if_pos (hdef.2 h)]
    simp [updateFileExtension, ht]
  · intro h
    have h2 : ¬ ((isDefaultJsCode reg.code || isDefaultPyCode reg.code) = true) :=
      fun hh => h (hdef.1 hh)
    rw [if_neg h2]
    simp [updateFileExtension]

/-! ## C1 -/

/-- C1, the code at the failing input: the component is mounted, the code becomes
`x=1` (by a `codeUpdate` event or by a local edit), and a `languageUpdate` to python
arrives. The handler tests the code of the first render, the placeholder, so the
code `x=1` is replaced by the python template instead of being kept. -/
theorem languageUpdate_overwrites_edited_code :
    (run ⟨none, "u", none⟩ [.mount, .remoteCode "x=1"]).code = "x=1" ∧
    (run ⟨none, "u", none⟩
        [.mount, .remoteCode "x=1", .remoteLanguage (.bare "python")]).code =
      "print(\"Hello World\")\n\n" ∧
    (run ⟨none, "u", none⟩
        [.mount, .localCode "x=1", .remoteLanguage (.object (some "python"))]).code =
      "print(\"Hello World\")\n\n" ∧
    (run ⟨none, "u", none⟩ [.mount, .remoteLanguage (.bare "python")]).code =
      "print(\"Hello World\")\n\n" := by
  decide

/-! ## C2 -/

theorem find?_hasId_none (key : String) (l : List Participant)
    (h : l.find? (hasId key) = none) : l.countP (hasId key) = 0 := by
  rw [List.countP_eq_zero]
  intro p hp
  have := List.find?_eq_none.1 h p hp
  simpa using this

theorem find?_hasId_some (key : String) (l : List Participant) (q : Participant)
    (h : l.find? (hasId key) = some q) : 0 < l.countP (hasId key) := by
  rw [List.countP_pos_iff]
  exact ⟨q, List.mem_of_find?_eq_some h, List.find?_some h⟩

/-- C2, as stated, fails: an incoming list that holds the local id twice is kept as
given, so the registry holds two entries with the local id. -/
theorem participantsList_duplicate_local :
    ((participantsList ⟨none, "42", none⟩ firstRender
        [⟨.str "42", "A", false, false, false, none⟩,
         ⟨.num "42", "B", false, true, false, none⟩] initialState).activeParticipants.countP
      (hasId "42")) = 2 := by
  decide

/-- C2, amended: the registry produced by `participantsList` holds the local id once
when the incoming list did not hold it, and otherwise as many times as the incoming
list did; so at least once, and exactly once for an incoming list that held it at
most once. -/
theorem participantsList_local_count (env : Env) (reg : Registered)
    (participants : List Participant) (s : State) :
    (participantsList env reg participants s).activeParticipants.countP (hasId env.userId) =
        max 1 (participants.countP (hasId env.userId)) ∧
      (participants.countP (hasId env.userId) ≤ 1 →
        (participantsList env reg participants s).activeParticipants.countP
          (hasId env.userId) = 1) := by
  have key : (participantsList env reg participants s).activeParticipants.countP
      (hasId env.userId) = max 1 (participants.countP (hasId env.userId)) := by
    cases hf : participants.find? (hasId env.userId) with
    | none =>
      have h0 := find?_hasId_none _ _ hf
      simp only [participantsList, hf]
      simp [List.countP_cons, h0, hasId, ParticipantId.toString]
    | some q =>
      have h1 := find?_hasId_some _ _ _ hf
      simp only [participantsList, hf]
      omega
  refine ⟨key, fun h => ?_⟩
  rw [key]
  omega

/-- C2 amended, at concrete inputs: an empty incoming list, and a list that holds
the local id once. -/
theorem participantsList_local_count_witness :
    (participantsList ⟨none, "42", none⟩ firstRender [] initialState).activeParticipants.countP
        (hasId "42") = 1 ∧
      (participantsList ⟨none, "42", none⟩ firstRender [⟨.num "42", "B", false, true, false, none⟩]
        initialState).activeParticipants.countP (hasId "42") = 1 :=
  ⟨(participantsList_local_count ⟨none, "42", none⟩ firstRender [] initialState).2 (by decide),
    (participantsList_local_count ⟨none, "42", none⟩ firstRender
      [⟨.num "42", "B", false, true, false, none⟩] initialState).2 (by decide)⟩

/-! ## C3 -/

theorem applyJoin_of_any (prev : List Participant) (p : Participant)
    (h : prev.any (hasId p.id.toString) = true) :
    applyJoin prev p = prev.map (fun q => if hasId p.id.toString q then p else q) := by
  simp only [applyJoin, h, if_true]

theorem applyJoin_of_not_any (prev : List Participant) (p : Participant)
    (h : prev.any (hasId p.id.toString) = false) :
    applyJoin prev p = prev ++ [p] := by
  simp [applyJoin, h]

theorem hasId_self (p : Participant) : hasId p.id.toString p = true := by
  simp [hasId]

theorem map_replace_of_not_any (key : String) (p : Participant) (l : List Participant)
    (h : l.any (hasId key) = false) :
    l.map (fun q => if hasId key q then p else q) = l := by
  induction l with
  | nil => rfl
  | cons a t ih =>
    simp only [List.any_cons, Bool.or_eq_false_iff] at h
    simp [h.1, ih h.2]

theorem any_applyJoin (prev : List Participant) (p : Participant) :
    (applyJoin prev p).any (hasId p.id.toString) = true := by
  cases h : prev.any (hasId p.id.toString) with
  | true =>
    rw [applyJoin_of_any _ _ h]
    rw [List.any_eq_true] at h ⊢
    obtain ⟨q, hq, hk⟩ := h
    exact ⟨p, List.mem_map.2 ⟨q, hq, by simp [hk]⟩, hasId_self p⟩
  | false =>
    rw [applyJoin_of_not_any _ _ h]
    simp [hasId_self]

/-- The registry after a non-empty run of joins with one id: the existing entries
with that id are replaced by the last participant, or the last participant is
appended. -/
theorem foldl_applyJoin (i : String) (ps : List Participant) :
    ∀ (reg : List Participant) (hne : ps ≠ []), (∀ p ∈ ps, p.id.toString = i) →
      ps.foldl applyJoin reg =
        if reg.any (hasId i) then
          reg.map (fun q => if hasId i q then ps.getLast hne else q)
        else reg ++ [ps.getLast hne] := by
  induction ps with
  | nil => intro reg hne; exact absurd rfl hne
  | cons p rest ih =>
    intro reg hne hall
    have hp : p.id.toString = i := hall p (List.mem_cons_self _ _)
    cases rest with
    | nil =>
      simp only [List.foldl_cons, List.foldl_nil, List.getLast_singleton]
      cases h : reg.any (hasId i) with
      | true => rw [applyJoin_of_any _ _ (hp ▸ h), hp]; simp
      | false => rw [applyJoin_of_not_any _ _ (hp ▸ h)]; simp
    | cons r rest2 =>
      have hall2 : ∀ q ∈ r :: rest2, q.id.toString = i :=
        fun q hq => hall q (List.mem_cons_of_mem _ hq)
      have hany : (applyJoin reg p).any (hasId i) = true := hp ▸ any_applyJoin reg p
      rw [List.foldl_cons, ih (applyJoin reg p) (List.cons_ne_nil _ _) hall2, if_pos hany,
        List.getLast_cons (List.cons_ne_nil r rest2)]
      have hpi : hasId i p = true := hp ▸ hasId_self p
      cases h : reg.any (hasId i) with
      | true =>
        rw [applyJoin_of_any _ _ (hp ▸ h), hp, List.map_map, if_pos rfl]
        apply List.map_congr_left
        intro q _
        by_cases hq : hasId i q = true <;> simp [hq, hpi]
      | false =>
        rw [applyJoin_of_not_any _ _ (hp ▸ h), List.map_append,
          map_replace_of_not_any _ _ _ h]
        simp [hpi]

theorem countP_map_replace (key : String) (p : Participant) (hp : hasId key p = true)
    (l : List Participant) :
    (l.map (fun q => if hasId key q then p else q)).countP (hasId key) =
      l.countP (hasId key) := by
  induction l with
  | nil => rfl
  | cons a t ih =>
    by_cases ha : hasId key a = true
    · simp [List.countP_cons, ha, hp, ih]
    · simp [List.countP_cons, ha, ih]

/-- C3: after a non-empty run of `applyJoin` calls whose participants all have id
`i`, on a registry with at most one entry of id `i`, the registry holds exactly one
entry of id `i`: the existing entry was replaced in place by the last participant,
or the last participant was appended; and one more join with id `i` keeps the
length. -/
theorem applyJoin_same_id (i : String) (reg ps : List Participant) (hne : ps ≠ [])
    (hall : ∀ p ∈ ps, p.id.toString = i) (hreg : reg.countP (hasId i) ≤ 1) :
    (ps.foldl applyJoin reg).countP (hasId i) = 1 ∧
    (ps.foldl applyJoin reg =
      if reg.any (hasId i) then
        reg.map (fun q => if hasId i q then ps.getLast hne else q)
      else reg ++ [ps.getLast hne]) ∧
    ((ps.foldl applyJoin reg).length =
      if reg.any (hasId i) then reg.length else reg.length + 1) ∧
    (∀ p : Participant, p.id.toString = i →
      (applyJoin (ps.foldl applyJoin reg) p).length = (ps.foldl applyJoin reg).length) := by
  have hform := foldl_applyJoin i ps reg hne hall
  have hlast : hasId i (ps.getLast hne) = true := by
    have := hall _ (List.getLast_mem hne)
    rw [← this]; exact hasId_self _
  have hcount : (ps.foldl applyJoin reg).countP (hasId i) = 1 := by
    rw [hform]
    cases h : reg.any (hasId i) with
    | true =>
      rw [if_pos rfl, countP_map_replace _ _ hlast]
      have : 0 < reg.countP (hasId i) := by
        rw [List.countP_pos_iff]
        simpa [List.any_eq_true] using h
      omega
    | false =>
      have h0 : reg.countP (hasId i) = 0 := by
        rw [List.countP_eq_zero]
        intro q hq
        have := List.any_eq_false.1 h q hq
        simpa using this
      simp [List.countP_append, h0, hlast]
  refine ⟨hcount, hform, ?_, ?_⟩
  · rw [hform]
    cases h : reg.any (hasId i) <;> simp
  · intro p hp
    have hany : (ps.foldl applyJoin reg).any (hasId p.id.toString) = true := by
      rw [hp, List.any_eq_true]
      have : 0 < (ps.foldl applyJoin reg).countP (hasId i) := by omega
      obtain ⟨q, hq, hk⟩ := List.countP_pos_iff.1 this
      exact ⟨q, hq, hk⟩
    rw [applyJoin_of_any _ _ hany, List.length_map]

/-- C3, at a concrete input: two joins with id `7` on the initial registry leave one
entry with that id, the second participant. -/
theorem applyJoin_same_id_witness :
    ([⟨.str "7", "A", false, false, false, none⟩,
      ⟨.num "7", "B", false, true, false, none⟩].foldl applyJoin
        initialState.activeParticipants).countP (hasId "7") = 1 :=
  (applyJoin_same_id "7" initialState.activeParticipants
    [⟨.str "7", "A", false, false, false, none⟩, ⟨.num "7", "B", false, true, false, none⟩]
    (by simp) (by decide) (by decide)).1


/-! ## Shared lemmas on the execution relay -/

theorem executeCodeStart_idle (s : State) (h : s.isExecuting = false) :
    executeCodeStart s =
      ({ s with
          terminalOutput := s.terminalOutput ++ [commandEntry s, loadingEntry]
          isTerminalOpen := true
          isExecuting := true },
        some { commandEntry := commandEntry s
               updatedHistory := s.terminalOutput ++ [commandEntry s, loadingEntry]
               request := apiRequest s.code (apiLanguage s.currentLanguage) }) := by
  simp [executeCodeStart, h]

theorem dropLast_updatedHistory (l : List TerminalEntry) (a b : TerminalEntry) :
    (l ++ [a, b]).dropLast = l ++ [a] := by
  have : l ++ [a, b] = (l ++ [a]) ++ [b] := by simp
  rw [this, List.dropLast_concat]

theorem executeCode_idle (env : Env) (o : FetchOutcome) (s : State)
    (h : s.isExecuting = false) :
    executeCode env o s =
      ({ s with
          terminalOutput := s.terminalOutput ++ commandEntry s :: addedEntries o
          isTerminalOpen := true
          isExecuting := false },
        some (apiRequest s.code (apiLanguage s.currentLanguage)),
        if s.connected then
          [Emit.executionResult (activeSessionId env) (commandEntry s :: addedEntries o)]
        else []) := by
  simp [executeCode, executeCodeStart_idle s h, executeCodeFinish, dropLast_updatedHistory]

theorem executeCode_busy (env : Env) (o : FetchOutcome) (s : State)
    (h : s.isExecuting = true) : executeCode env o s = (s, none, []) := by
  simp [executeCode, executeCodeStart, h]

theorem append_ne_empty (a b : String) (h : a ≠ "") : a ++ b ≠ "" := by
  intro hab
  have hl := congrArg String.length hab
  rw [String.length_append] at hl
  have ha : a.length ≠ 0 := by
    intro h0
    apply h
    cases a with
    | mk d =>
      have : d = [] := List.length_eq_zero.1 h0
      subst this
      rfl
  have : ("" : String).length = 0 := rfl
  omega

theorem addedEntries_thrown (o : FetchOutcome) (m : String) (h : callApi o = .error m) :
    executeCodeWithExternalAPI o =
        .ok { output := "", error := "Execution failed: " ++ m, exitCode := 1 } ∧
      addedEntries o = [{ type := .error, content := "Execution failed: " ++ m }] := by
  have hne : "Execution failed: " ++ m ≠ "" := append_ne_empty _ _ (by decide)
  constructor
  · simp [executeCodeWithExternalAPI, h]
  · simp [addedEntries, executeCodeWithExternalAPI, h, resultEntries, hne]

theorem commandEntry_content_ne (s : State) : (commandEntry s).content ≠ "" := by
  unfold commandEntry
  exact append_ne_empty _ _ (by decide)

/-! ## C4 -/

/-- C4: when `executeCode` is called with no execution in flight on a log `L`, the
progress marker takes the last slot; at completion, for every outcome of the service
and whatever the state of that moment, the log is `L` followed by exactly the entries
of the `executionResult` event emitted (the input entry, then the result entries), the
marker being replaced; and a peer whose log was `L` has the same log after the
event. -/
theorem executeCode_log_matches_broadcast (env : Env) (o : FetchOutcome) (s peer : State)
    (hidle : s.isExecuting = false) (hpeer : peer.terminalOutput = s.terminalOutput) :
    ∃ p : Pending, (executeCodeStart s).2 = some p ∧
      (executeCodeStart s).1.terminalOutput.getLast? = some loadingEntry ∧
      ∀ s2 : State, s2.connected = true →
        ∃ entries : List TerminalEntry,
          (executeCodeFinish env p o s2).2 =
              [Emit.executionResult (activeSessionId env) entries] ∧
            entries = commandEntry s :: addedEntries o ∧
            (executeCodeFinish env p o s2).1.terminalOutput = s.terminalOutput ++ entries ∧
            (executeCodeFinish env p o s2).1.terminalOutput =
              (executeCodeStart s).1.terminalOutput.dropLast ++ addedEntries o ∧
            (executionResult (.terminalEntries entries) peer).terminalOutput =
              (executeCodeFinish env p o s2).1.terminalOutput := by
  refine ⟨_, by rw [executeCodeStart_idle s hidle], ?_, ?_⟩
  · rw [executeCodeStart_idle s hidle]
    have : s.terminalOutput ++ [commandEntry s, loadingEntry] =
        (s.terminalOutput ++ [commandEntry s]) ++ [loadingEntry] := by simp
    simp only [this, List.getLast?_concat]
  · intro s2 hconn
    refine ⟨commandEntry s :: addedEntries o, ?_, rfl, ?_, ?_, ?_⟩
    · simp [executeCodeFinish, hconn]
    · simp [executeCodeFinish, dropLast_updatedHistory]
    · rw [executeCodeStart_idle s hidle]
      simp [executeCodeFinish]
    · simp [executeCodeFinish, executionResult, hpeer, dropLast_updatedHistory]

/-- C4, at a concrete input: a run on the initial state that ends in a network
failure, with a peer that starts from the same empty log. -/
theorem executeCode_log_matches_broadcast_witness :
    ∃ p : Pending, (executeCodeStart initialState).2 = some p ∧
      (executeCodeStart initialState).1.terminalOutput.getLast? = some loadingEntry ∧
      ∀ s2 : State, s2.connected = true →
        ∃ entries : List TerminalEntry,
          (executeCodeFinish ⟨none, "u", none⟩ p (.networkError "down") s2).2 =
              [Emit.executionResult (activeSessionId ⟨none, "u", none⟩) entries] ∧
            entries = commandEntry initialState :: addedEntries (.networkError "down") ∧
            (executeCodeFinish ⟨none, "u", none⟩ p (.networkError "down") s2).1.terminalOutput =
              initialState.terminalOutput ++ entries ∧
            (executeCodeFinish ⟨none, "u", none⟩ p (.networkError "down") s2).1.terminalOutput =
              (executeCodeStart initialState).1.terminalOutput.dropLast ++
                addedEntries (.networkError "down") ∧
            (executionResult (.terminalEntries entries) initialState).terminalOutput =
              (executeCodeFinish ⟨none, "u", none⟩ p (.networkError "down")
                s2).1.terminalOutput :=
  executeCode_log_matches_broadcast ⟨none, "u", none⟩ (.networkError "down") initialState
    initialState rfl rfl

/-! ## C5 -/

/-- C5: for a successful execution (a 2xx response whose `run` carries `stdout` and
`stderr`), the entries `executeCode` derives are the input entry, then one output
entry with content `stdout` iff `stdout` is non-empty, then one error entry with
content `stderr` iff `stderr` is non-empty; they are what the log gains, and none has
empty content. -/
theorem executeCode_success_entries (env : Env) (s : State) (status : Nat)
    (stdout stderr : String) (exitCode : Option Int)
    (hok : responseOk status = true) (hidle : s.isExecuting = false) :
    addedEntries (.response status (.value (some ⟨some stdout, some stderr, exitCode⟩))) =
        (if stdout ≠ "" then [{ type := .output, content := stdout }] else []) ++
          (if stderr ≠ "" then [{ type := .error, content := stderr }] else []) ∧
      (executeCode env (.response status (.value (some ⟨some stdout, some stderr, exitCode⟩)))
          s).1.terminalOutput =
        s.terminalOutput ++
          ({ type := .input, content := (commandEntry s).content } ::
            ((if stdout ≠ "" then [{ type := .output, content := stdout }] else []) ++
              (if stderr ≠ "" then [{ type := .error, content := stderr }] else []))) ∧
      ∀ e ∈ commandEntry s ::
          addedEntries (.response status (.value (some ⟨some stdout, some stderr, exitCode⟩))),
        e.content ≠ "" := by
  have hadd : addedEntries
      (.response status (.value (some ⟨some stdout, some stderr, exitCode⟩))) =
        (if stdout ≠ "" then [{ type := .output, content := stdout }] else []) ++
          (if stderr ≠ "" then [{ type := .error, content := stderr }] else []) := by
    by_cases h1 : stdout = "" <;> by_cases h2 : stderr = "" <;>
      simp [addedEntries, executeCodeWithExternalAPI, callApi, hok, resultEntries, orElse,
        h1, h2]
  refine ⟨hadd, ?_, ?_⟩
  · rw [executeCode_idle env _ s hidle, hadd]
    rfl
  · intro e he
    rw [hadd] at he
    rcases List.mem_cons.1 he with h | h
    · rw [h]; exact commandEntry_content_ne s
    · rcases List.mem_append.1 h with h | h
      · by_cases h1 : stdout = ""
        · simp [h1] at h
        · simp [h1] at h; rw [h]; exact h1
      · by_cases h2 : stderr = ""
        · simp [h2] at h
        · simp [h2] at h; rw [h]; exact h2

/-- C5, at a concrete input: `stdout` equal to `5` and an empty `stderr` give the
input entry and one output entry. -/
theorem executeCode_success_entries_witness :
    (executeCode ⟨none, "u", none⟩
        (.response 200 (.value (some ⟨some "5", some "", some 0⟩)))
        initialState).1.terminalOutput =
      [{ type := .input, content := "run main.js" }, { type := .output, content := "5" }] := by
  have h := (executeCode_success_entries ⟨none, "u", none⟩ initialState 200 "5" "" (some 0)
    (by decide) rfl).2.1
  rw [h]
  decide


/-! ## C6 -/

/-- C6, as stated, fails: a 2xx response whose body parses to a value without a `run`
object is taken as an execution with empty output, so nothing follows the input
entry. -/
theorem executeCode_malformed_body_no_entry :
    (executeCode ⟨none, "u", none⟩ (.response 200 (.value none))
        initialState).1.terminalOutput =
      [{ type := .input, content := "run main.js" }] ∧
    addedEntries (.response 200 (.value none)) = [] := by
  decide

/-- C6, amended: `executeCodeWithExternalAPI` returns for every outcome, and a run of
`executeCode` started with no execution in flight ends with the flag cleared and the
log extended by the input entry and the added entries; for a network exception, a
non-2xx status, a body that cannot be parsed and a body that parses to `null`, the
added entries are exactly one entry, of kind error; for a 2xx response whose body
parses to another value and has no `run` object, or a `run` with neither `stdout`
nor `stderr`, no entry is added. -/
theorem executeCode_failure_entry (env : Env) (s : State) (hidle : s.isExecuting = false) :
    (∀ o : FetchOutcome,
      (∃ r, executeCodeWithExternalAPI o = .ok r) ∧
      (executeCode env o s).1.isExecuting = false ∧
      (executeCode env o s).1.terminalOutput =
        s.terminalOutput ++ commandEntry s :: addedEntries o) ∧
    (∀ m : String,
      addedEntries (.networkError m) =
        [{ type := .error, content := "Execution failed: " ++ m }]) ∧
    (∀ (status : Nat) (body : BodyOutcome), responseOk status = false →
      addedEntries (.response status body) =
        [{ type := .error
           content :=
             "Execution failed: " ++ ("API responded with status: " ++ Nat.repr status) }]) ∧
    (∀ (status : Nat) (m : String), responseOk status = true →
      addedEntries (.response status (.parseError m)) =
        [{ type := .error, content := "Execution failed: " ++ m }]) ∧
    (∀ (status : Nat) (m : String), responseOk status = true →
      addedEntries (.response status (.null m)) =
        [{ type := .error, content := "Execution failed: " ++ m }]) ∧
    (∀ status : Nat, responseOk status = true →
      addedEntries (.response status (.value none)) = [] ∧
      (executeCode env (.response status (.value none)) s).1.terminalOutput =
        s.terminalOutput ++ [commandEntry s]) ∧
    (∀ (status : Nat) (exitCode : Option Int), responseOk status = true →
      addedEntries (.response status (.value (some ⟨none, none, exitCode⟩))) = [] ∧
      (executeCode env (.response status (.value (some ⟨none, none, exitCode⟩)))
        s).1.terminalOutput = s.terminalOutput ++ [commandEntry s]) := by
  have hnone : ∀ status : Nat, responseOk status = true →
      addedEntries (.response status (.value none)) = [] := by
    intro status hs
    simp [addedEntries, executeCodeWithExternalAPI, callApi, hs, resultEntries, orElse]
  have hempty : ∀ (status : Nat) (exitCode : Option Int), responseOk status = true →
      addedEntries (.response status (.value (some ⟨none, none, exitCode⟩))) = [] := by
    intro status exitCode hs
    simp [addedEntries, executeCodeWithExternalAPI, callApi, hs, resultEntries, orElse]
  refine ⟨fun o => ⟨?_, ?_, ?_⟩, fun m => ?_, fun status body hs => ?_, fun status m hs => ?_,
    fun status m hs => ?_, fun status hs => ⟨hnone status hs, ?_⟩,
    fun status exitCode hs => ⟨hempty status exitCode hs, ?_⟩⟩
  · unfold executeCodeWithExternalAPI
    cases callApi o with
    | ok r => exact ⟨r, rfl⟩
    | error m => exact ⟨_, rfl⟩
  · rw [executeCode_idle env o s hidle]
  · rw [executeCode_idle env o s hidle]
  · exact (addedEntries_thrown (.networkError m) m rfl).2
  · exact (addedEntries_thrown (.response status body)
      ("API responded with status: " ++ Nat.repr status) (by simp only [callApi, hs]; rfl)).2
  · exact (addedEntries_thrown (.response status (.parseError m)) m
      (by simp only [callApi, hs]; rfl)).2
  · exact (addedEntries_thrown (.response status (.null m)) m
      (by simp only [callApi, hs]; rfl)).2
  · rw [executeCode_idle env _ s hidle, hnone status hs]
  · rw [executeCode_idle env _ s hidle, hempty status exitCode hs]

/-- C6 amended, at concrete inputs: a status 500, and a status 200 with a body that
parses to `null`. -/
theorem executeCode_failure_entry_witness :
    addedEntries (.response 500 (.value none)) =
      [{ type := .error, content := "Execution failed: API responded with status: 500" }] ∧
    addedEntries (.response 200 (.null "Cannot read properties of null (reading 'run')")) =
      [{ type := .error
         content := "Execution failed: Cannot read properties of null (reading 'run')" }] := by
  have h := executeCode_failure_entry ⟨none, "u", none⟩ initialState rfl
  refine ⟨?_, ?_⟩
  · rw [h.2.2.1 500 (.value none) (by decide)]
    decide
  · rw [h.2.2.2.2.1 200 _ (by decide)]
    decide

/-! ## C7 -/

theorem map_update_of_no_match (key : String) (f : Participant → Participant)
    (l : List Participant) (h : ∀ p ∈ l, hasId key p = false) :
    l.map (fun p => if hasId key p then f p else p) = l := by
  induction l with
  | nil => rfl
  | cons a t ih =>
    have ha := h a (List.mem_cons_self _ _)
    have ht := ih (fun p hp => h p (List.mem_cons_of_mem _ hp))
    simp [ha, ht]

/-- C7: a toggle event whose id matches no entry of the registry leaves the
registry, and with it the whole state, unchanged. -/
theorem applyToggle_unknown_id (ev : ToggleEvent) (s : State)
    (h : ∀ p ∈ s.activeParticipants, hasId ev.userId.toString p = false) :
    applyToggle ev s.activeParticipants = s.activeParticipants ∧
      (applyToggle ev s.activeParticipants).length = s.activeParticipants.length ∧
      onToggle ev s = s := by
  have key : applyToggle ev s.activeParticipants = s.activeParticipants := by
    cases ev with
    | audioToggled u m => exact map_update_of_no_match _ _ _ h
    | videoToggled u v => exact map_update_of_no_match _ _ _ h
    | screenSharingStarted u => exact map_update_of_no_match _ _ _ h
    | screenSharingEnded u => exact map_update_of_no_match _ _ _ h
  refine ⟨key, by rw [key], ?_⟩
  unfold onToggle
  rw [key]

/-- C7, at a concrete input: an `audioToggled` for the id `9` on the initial
registry, which holds only the id `1`. -/
theorem applyToggle_unknown_id_witness :
    onToggle (.audioToggled (.str "9") true) initialState = initialState :=
  (applyToggle_unknown_id (.audioToggled (.str "9") true) initialState (by decide)).2.2

/-! ## C8 -/

/-- C8: while an execution is in flight, `executeCode` returns at its guard: the
state is unchanged, no request is made to the service and nothing is emitted. -/
theorem executeCode_in_flight (env : Env) (o : FetchOutcome) (s : State)
    (h : s.isExecuting = true) :
    executeCodeStart s = (s, none) ∧ executeCode env o s = (s, none, []) ∧
      (executeCode env o s).1.terminalOutput.length = s.terminalOutput.length ∧
      (executeCode env o s).1.isExecuting = true := by
  have hs : executeCodeStart s = (s, none) := by simp [executeCodeStart, h]
  have he : executeCode env o s = (s, none, []) := executeCode_busy env o s h
  exact ⟨hs, he, by rw [he], by rw [he]; exact h⟩

/-- C8, at a concrete input: a second call right after the start of a first one. -/
theorem executeCode_in_flight_witness :
    executeCode ⟨none, "u", none⟩ (.networkError "down") (executeCodeStart initialState).1 =
      ((executeCodeStart initialState).1, none, []) :=
  (executeCode_in_flight ⟨none, "u", none⟩ (.networkError "down")
    (executeCodeStart initialState).1 (by decide)).2.1

/-! ## C9 -/

/-- C9, as stated, fails: the file explorer sets the selected file on its own, so
after a selection of `App.jsx` the file name is not the one of the language. -/
theorem fileSelect_breaks_file_name :
    (run ⟨none, "u", none⟩ [.mount, .fileSelect "App.jsx"]).selectedFile = "App.jsx" ∧
    (run ⟨none, "u", none⟩ [.mount, .fileSelect "App.jsx"]).currentLanguage = "javascript" ∧
    (run ⟨none, "u", none⟩ [.mount, .fileSelect "App.jsx"]).selectedFile ≠
      fileNameOf (run ⟨none, "u", none⟩ [.mount, .fileSelect "App.jsx"]).currentLanguage := by
  decide

/-- C9, amended: the first render and the mount effect give the file name of the
language; a `languageUpdate` event with a supported language and a local language
change made while connected leave the file name of the new language; the file
explorer sets the file name to the file chosen and keeps the language; every other
operation keeps both. -/
theorem selectedFile_follows_language (env : Env) (reg : Registered) (s : State) :
    initialState.selectedFile = fileNameOf initialState.currentLanguage ∧
    (mountEffect s).selectedFile = fileNameOf (mountEffect s).currentLanguage ∧
    (∀ (data : LanguagePayload) (L : String), data.updatedLanguage = .ok (some L) →
      L ∈ supportedLanguages →
      (onLanguageUpdate env reg data s).1.currentLanguage = L ∧
      (onLanguageUpdate env reg data s).1.selectedFile = fileNameOf L) ∧
    (∀ L : String, s.connected = true → L ≠ s.currentLanguage →
      (setCurrentLanguage env L s).1.currentLanguage = L ∧
      (setCurrentLanguage env L s).1.selectedFile = fileNameOf L) ∧
    (∀ f : String, (onFileSelect f s).selectedFile = f ∧
      (onFileSelect f s).currentLanguage = s.currentLanguage) ∧
    (∀ a : Action, (∀ d, a ≠ .remoteLanguage d) → (∀ l, a ≠ .localLanguage l) →
      (∀ f, a ≠ .fileSelect f) → a ≠ .mount →
      (step env s a).selectedFile = s.selectedFile ∧
      (step env s a).currentLanguage = s.currentLanguage) := by
  refine ⟨by decide, rfl, ?_, ?_, fun f => ⟨rfl, rfl⟩, ?_⟩
  · intro data L hd hL
    rw [onLanguageUpdate_ok env reg data s _ (languageUpdate_supported reg data L s hd hL)]
    unfold languageEffect
    split <;> split <;> exact ⟨rfl, rfl⟩
  · intro L hc hne
    have : ((L != s.currentLanguage) && s.connected) = true := by simp [hc, hne]
    simp only [setCurrentLanguage, languageEffect, this, if_true]
    exact ⟨rfl, rfl⟩
  · intro a h1 h2 h3 h4
    cases a with
    | mount => exact absurd rfl h4
    | remoteLanguage d => exact absurd rfl (h1 d)
    | localLanguage l => exact absurd rfl (h2 l)
    | fileSelect f => exact absurd rfl (h3 f)
    | connect => exact ⟨rfl, rfl⟩
    | disconnect => exact ⟨rfl, rfl⟩
    | remoteCode c => exact ⟨rfl, rfl⟩
    | localCode c => exact ⟨rfl, rfl⟩
    | participants l =>
      simp only [step, participantsList]
      split <;> exact ⟨rfl, rfl⟩
    | joined p => exact ⟨rfl, rfl⟩
    | left i => exact ⟨rfl, rfl⟩
    | toggled ev => exact ⟨rfl, rfl⟩
    | localAudio => exact ⟨rfl, rfl⟩
    | localVideo => exact ⟨rfl, rfl⟩
    | remoteExecution r => cases r <;> exact ⟨rfl, rfl⟩
    | execute o =>
      cases h : s.isExecuting with
      | true => rw [step, executeCode_busy env o s h]; exact ⟨rfl, rfl⟩
      | false => rw [step, executeCode_idle env o s h]; exact ⟨rfl, rfl⟩

/-- C9 amended, at a concrete input: a `languageUpdate` to python on the initial
state, and a local change to python while connected. -/
theorem selectedFile_follows_language_witness :
    (onLanguageUpdate ⟨none, "u", none⟩ firstRender (.bare "python")
      initialState).1.selectedFile = "main.py" ∧
    (setCurrentLanguage ⟨none, "u", none⟩ "python"
      (setConnected true initialState)).1.selectedFile = "main.py" := by
  have h := selectedFile_follows_language ⟨none, "u", none⟩ firstRender initialState
  have h2 := selectedFile_follows_language ⟨none, "u", none⟩ firstRender
    (setConnected true initialState)
  refine ⟨?_, ?_⟩
  · rw [(h.2.2.1 (.bare "python") "python" rfl (by decide)).2]; decide
  · rw [(h2.2.2.2.1 "python" rfl (by decide)).2]; decide

/-! ## C10 -/

/-- C10, as stated, fails: the language setter handed to the editor header stores the
value it is given, so after a local change to `ruby` the stored language is outside
the supported set, and a `languageUpdate` with an unsupported value, being a no-op,
leaves it stored. -/
theorem unsupported_language_stays_stored :
    (run ⟨none, "u", none⟩ [.mount, .connect, .localLanguage "ruby"]).currentLanguage =
      "ruby" ∧
    (run ⟨none, "u", none⟩
      [.mount, .connect, .localLanguage "ruby",
        .remoteLanguage (.bare "cobol")]).currentLanguage = "ruby" ∧
    (run ⟨none, "u", none⟩
      [.mount, .connect, .localLanguage "ruby",
        .remoteLanguage (.bare "cobol")]).currentLanguage ∉ supportedLanguages := by
  decide

/-- C10, amended: a `languageUpdate` payload that is a bare string or an object (not
`null`) and whose language value is missing, empty or outside the supported set is a
no-op of the handler and of the whole event: the state is unchanged and nothing is
emitted. Hence every `languageUpdate` event keeps the stored language or stores a
supported one, and keeps a supported stored language supported; the stored language
itself can be any value, as the language setter handed to the editor header stores
what it is given. -/
theorem languageUpdate_unsupported (env : Env) (reg : Registered) (data : LanguagePayload)
    (s : State) (hn : data ≠ .null)
    (h : ∀ L, data.updatedLanguage = .ok (some L) → L ∉ supportedLanguages) :
    languageUpdate reg data s = .ok s ∧ onLanguageUpdate env reg data s = (s, []) ∧
      (∀ (d : LanguagePayload),
        (onLanguageUpdate env reg d s).1.currentLanguage = s.currentLanguage ∨
        (onLanguageUpdate env reg d s).1.currentLanguage ∈ supportedLanguages) ∧
      (∀ (d : LanguagePayload), s.currentLanguage ∈ supportedLanguages →
        (onLanguageUpdate env reg d s).1.currentLanguage ∈ supportedLanguages) ∧
      (∀ L : String, (setCurrentLanguage env L s).1.currentLanguage = L) := by
  have key := languageUpdate_ignored reg data s hn h
  have stored : ∀ (d : LanguagePayload),
      (onLanguageUpdate env reg d s).1.currentLanguage = s.currentLanguage ∨
      (onLanguageUpdate env reg d s).1.currentLanguage ∈ supportedLanguages := by
    intro d
    by_cases hnull : d = .null
    · subst hnull
      rw [onLanguageUpdate_thrown env reg .null s "TypeError" rfl]
      exact Or.inl rfl
    · by_cases hd : ∀ L, d.updatedLanguage = .ok (some L) → L ∉ supportedLanguages
      · rw [onLanguageUpdate_ok env reg d s s (languageUpdate_ignored reg d s hnull hd),
          languageEffect_currentLanguage]
        exact Or.inl rfl
      · push_neg at hd
        obtain ⟨L, hL, hmem⟩ := hd
        rw [onLanguageUpdate_ok env reg d s _ (languageUpdate_supported reg d L s hL hmem),
          languageEffect_currentLanguage]
        unfold updateFileExtension
        right
        split <;> exact hmem
  refine ⟨key, ?_, stored, ?_, ?_⟩
  · rw [onLanguageUpdate_ok env reg data s s key]
    simp [languageEffect]
  · intro d hs
    rcases stored d with h1 | h1
    · rw [h1]; exact hs
    · exact h1
  · intro L
    rw [setCurrentLanguage, languageEffect_currentLanguage]

/-- C10 amended, at concrete inputs: an unsupported bare string, an empty string and
an object without a language leave the initial state as it is. -/
theorem languageUpdate_unsupported_witness :
    languageUpdate firstRender (.bare "ruby") initialState = .ok initialState ∧
    languageUpdate firstRender (.bare "") initialState = .ok initialState ∧
    onLanguageUpdate ⟨none, "u", none⟩ firstRender (.object none) initialState =
      (initialState, []) :=
  ⟨(languageUpdate_unsupported ⟨none, "u", none⟩ firstRender (.bare "ruby") initialState
      (by decide) (by intro L hL; cases hL; decide)).1,
    (languageUpdate_unsupported ⟨none, "u", none⟩ firstRender (.bare "") initialState
      (by decide) (by intro L hL; cases hL; decide)).1,
    (languageUpdate_unsupported ⟨none, "u", none⟩ firstRender (.object none) initialState
      (by decide) (by intro L hL; cases hL)).2.1⟩

/-! ## C11 -/

/-- C11: in a connected state whose registry holds an entry with the local id,
`toggleAudio` flips `isAudioOn`, emits one `audioToggled` event whose `isMuted` is
the negation of the new `isAudioOn`, and leaves every entry with the local id with
that same `isMuted`; the registry is the old one with only that field rewritten on
those entries, and no other state field changes. The same holds for `toggleVideo`
with `isVideoOn` and `isVideoOff`. -/
theorem toggle_publishes_new_state (env : Env) (s : State) (hconn : s.connected = true)
    (hlocal : ∃ p ∈ s.activeParticipants, hasId env.userId p = true) :
    ((toggleAudio env s).1.isAudioOn = !s.isAudioOn ∧
      (toggleAudio env s).2 =
        [Emit.audioToggled (activeSessionId env) env.userId
          (!(toggleAudio env s).1.isAudioOn)] ∧
      (∃ p ∈ (toggleAudio env s).1.activeParticipants, hasId env.userId p = true) ∧
      (∀ p ∈ (toggleAudio env s).1.activeParticipants, hasId env.userId p = true →
        p.isMuted = !(toggleAudio env s).1.isAudioOn) ∧
      (toggleAudio env s).1 =
        { s with
            isAudioOn := !s.isAudioOn
            activeParticipants :=
              s.activeParticipants.map
                (fun p => if hasId env.userId p then { p with isMuted := s.isAudioOn }
                  else p) }) ∧
    ((toggleVideo env s).1.isVideoOn = !s.isVideoOn ∧
      (toggleVideo env s).2 =
        [Emit.videoToggled (activeSessionId env) env.userId
          (!(toggleVideo env s).1.isVideoOn)] ∧
      (∃ p ∈ (toggleVideo env s).1.activeParticipants, hasId env.userId p = true) ∧
      (∀ p ∈ (toggleVideo env s).1.activeParticipants, hasId env.userId p = true →
        p.isVideoOff = !(toggleVideo env s).1.isVideoOn) ∧
      (toggleVideo env s).1 =
        { s with
            isVideoOn := !s.isVideoOn
            activeParticipants :=
              s.activeParticipants.map
                (fun p => if hasId env.userId p then { p with isVideoOff := s.isVideoOn }
                  else p) }) := by
  obtain ⟨q, hq, hk⟩ := hlocal
  refine ⟨⟨rfl, ?_, ?_, ?_, ?_⟩, ⟨rfl, ?_, ?_, ?_, ?_⟩⟩
  · simp [toggleAudio, hconn]
  · refine ⟨{ q with isMuted := s.isAudioOn }, ?_, ?_⟩
    · simp only [toggleAudio, List.mem_map]
      exact ⟨q, hq, by simp [hk]⟩
    · simpa [hasId] using hk
  · intro p hp hloc
    simp only [toggleAudio, List.mem_map] at hp
    obtain ⟨r, _, hr⟩ := hp
    by_cases hrk : hasId env.userId r = true
    · simp only [hrk, if_true] at hr
      subst hr
      simp [toggleAudio]
    · simp only [hrk] at hr
      have : p = r := by simpa using hr.symm
      subst this
      exact absurd hloc hrk
  · simp [toggleAudio]
  · simp [toggleVideo, hconn]
  · refine ⟨{ q with isVideoOff := s.isVideoOn }, ?_, ?_⟩
    · simp only [toggleVideo, List.mem_map]
      exact ⟨q, hq, by simp [hk]⟩
    · simpa [hasId] using hk
  · intro p hp hloc
    simp only [toggleVideo, List.mem_map] at hp
    obtain ⟨r, _, hr⟩ := hp
    by_cases hrk : hasId env.userId r = true
    · simp only [hrk, if_true] at hr
      subst hr
      simp [toggleVideo]
    · simp only [hrk] at hr
      have : p = r := by simpa using hr.symm
      subst this
      exact absurd hloc hrk
  · simp [toggleVideo]

/-- C11, at a concrete input: the initial state, connected, with local id `1`; the
microphone goes off and the event carries `isMuted` true. -/
theorem toggle_publishes_new_state_witness :
    (toggleAudio ⟨none, "1", none⟩ (setConnected true initialState)).1.isAudioOn = false ∧
    (toggleAudio ⟨none, "1", none⟩ (setConnected true initialState)).2 =
      [Emit.audioToggled "demo-session" "1" true] := by
  have h := (toggle_publishes_new_state ⟨none, "1", none⟩ (setConnected true initialState)
    rfl (by decide)).1
  refine ⟨by rw [h.1]; rfl, ?_⟩
  rw [h.2.1, h.1]
  decide

/-! ## C12 -/

/-- C12, the code at the failing input: the initial registry holds the entry with
the numeric id `1`, which `applyJoin` takes as existing for the id `"1"`; the
`participantLeft` handler for the id `"1"` compares the ids themselves and leaves
that entry in the registry. -/
theorem participantLeft_misses_toString_match :
    initialState.activeParticipants.any (hasId (ParticipantId.str "1").toString) = true ∧
    applyJoin initialState.activeParticipants ⟨.str "1", "A", false, false, false, none⟩ =
      [⟨.str "1", "A", false, false, false, none⟩] ∧
    participantLeft (.str "1") initialState = initialState ∧
    (participantLeft (.str "1") initialState).activeParticipants.any
      (hasId (ParticipantId.str "1").toString) = true := by
  decide

/-! ## C13 -/

/-- The log after a run of `executeCode` started with no execution in flight does
not depend on the events that arrived during the `await`. -/
theorem executeCodeDuring_log (env : Env) (o : FetchOutcome) (remote : List ExecutionPayload)
    (s : State) (h : s.isExecuting = false) :
    (executeCodeDuring env o remote s).1.terminalOutput =
      s.terminalOutput ++ commandEntry s :: addedEntries o := by
  simp [executeCodeDuring, executeCodeStart_idle s h, executeCodeFinish,
    dropLast_updatedHistory]

/-- C13, the code at the failing input: an execution starts on the initial state, a
remote `executionResult` with one entry arrives during the `await` and is appended,
and the completion sets the log from the history taken at the start, so that entry
is no longer in the log. -/
theorem executeCode_drops_remote_entries :
    (executionResult (.terminalEntries [⟨.output, "remote"⟩])
        (executeCodeStart initialState).1).terminalOutput =
      [⟨.input, "run main.js"⟩, ⟨.output, "Executing code..."⟩, ⟨.output, "remote"⟩] ∧
    (executeCodeDuring ⟨none, "u", none⟩
        (.response 200 (.value (some ⟨some "5", some "", some 0⟩)))
        [.terminalEntries [⟨.output, "remote"⟩]] initialState).1.terminalOutput =
      [⟨.input, "run main.js"⟩, ⟨.output, "5"⟩] ∧
    (⟨.output, "remote"⟩ : TerminalEntry) ∉
      (executeCodeDuring ⟨none, "u", none⟩
        (.response 200 (.value (some ⟨some "5", some "", some 0⟩)))
        [.terminalEntries [⟨.output, "remote"⟩]] initialState).1.terminalOutput := by
  decide

end KodeSesh
